import Mathlib

/-!
Shallow embedding of the simple-idb adapter (src/index.ts) and proofs of the
specification claims.  The class SimpleIDB wraps the host IndexedDB engine;
here its observable state (the db reference and the upgrade transaction
reference) is modelled explicitly, the engine database is modelled as an
association-list structure, and each public method of the class becomes a
pure function on that state.  Engine requests are assumed to behave as the
correct engine of the spec (and as the test mocks of the repository do).
-/

set_option autoImplicit false
set_option linter.unusedVariables false

namespace SimpleIDB

/-- StoreOptions (src/index.ts lines 1-4): both fields optional. -/
structure StoreOptions where
  keyPath : Option String := none
  autoIncrement : Option Bool := none
deriving DecidableEq, Repr

/-- IndexOptions (src/index.ts lines 6-9): both fields optional. -/
structure IndexOptions where
  unique : Option Bool := none
  multiEntry : Option Bool := none
deriving DecidableEq, Repr

/-- Engine-level configuration of an index, as created by
IDBObjectStore.createIndex with the defaults applied by the adapter. -/
structure IndexConfig where
  keyPath : String
  unique : Bool
  multiEntry : Bool
deriving DecidableEq, Repr

/-- A stored record: an association list from field names to numeric values.
Keys are derived from a record via the key path of the store. -/
structure DataRecord where
  fields : List (String × Nat)
deriving DecidableEq, Repr

/-- Value of the field named by a key path, as the engine key extraction. -/
def DataRecord.keyAt (r : DataRecord) (kp : String) : Option Nat :=
  (r.fields.find? (fun p => p.1 == kp)).map (·.2)

/-- An engine object store: configuration fixed at creation, plus the indexes
declared on it and the records it holds (an association list keyed by the
primary key). -/
structure ObjectStore where
  keyPath : Option String
  autoIncrement : Bool
  indexes : List (String × IndexConfig)
  records : List (Nat × DataRecord)
deriving DecidableEq, Repr

/-- Membership test of indexNames.contains on an object store. -/
def ObjectStore.containsIndex (st : ObjectStore) (indexName : String) : Bool :=
  st.indexes.any (fun p => p.1 == indexName)

/-- The engine database: named object stores. -/
structure EngineDB where
  stores : List (String × ObjectStore)
deriving DecidableEq, Repr

/-- Membership test of objectStoreNames.contains. -/
def EngineDB.containsStore (db : EngineDB) (storeName : String) : Bool :=
  db.stores.any (fun p => p.1 == storeName)

/-- The store accessor obtained for a named store (transaction.objectStore). -/
def EngineDB.getStore (db : EngineDB) (storeName : String) : Option ObjectStore :=
  (db.stores.find? (fun p => p.1 == storeName)).map (·.2)

/-- Replace the contents of the named store in the database. -/
def EngineDB.setStore (db : EngineDB) (storeName : String) (st : ObjectStore) :
    EngineDB :=
  ⟨db.stores.map (fun p => if p.1 == storeName then (p.1, st) else p)⟩

/-- Append a freshly created store (IDBDatabase.createObjectStore). -/
def EngineDB.addStore (db : EngineDB) (storeName : String) (st : ObjectStore) :
    EngineDB :=
  ⟨db.stores ++ [(storeName, st)]⟩

/-- The distinct error conditions the adapter produces, one constructor per
throw/reject site of src/index.ts.  engineNotFound models the engine
NotFoundError thrown by db.transaction for an undeclared store, which the
promise executor converts into a rejection. -/
inductive Err where
  | unsupportedEnvironment
  | notOpen
  | openFailed (msg : String)
  | storeNotFound (storeName : String)
  | indexCreationOutsideUpgrade
  | engineNotFound (storeName : String)
  | addFailed (msg : String)
  | getFailed (msg : String)
  | putFailed (msg : String)
  | deleteFailed (msg : String)
  | clearFailed (msg : String)
  | getAllFailed (msg : String)
  | countFailed (msg : String)
deriving DecidableEq, Repr

/-- The adapter instance state (src/index.ts lines 16-17): the database
reference this.db and the upgrade transaction reference
this.upgradeTransaction, the latter modelled by its presence. -/
structure Handle where
  db : Option EngineDB
  upgradeTransaction : Bool
deriving DecidableEq, Repr

/-- A freshly constructed SimpleIDB instance: both references null. -/
def Handle.init : Handle := { db := none, upgradeTransaction := false }

/-- createStore (src/index.ts lines 42-53): throws NotOpen when this.db is
null; silently returns when the store already exists; otherwise calls the
createObjectStore call of the engine with the defaults applied. -/
def createStore (h : Handle) (storeName : String) (options : Option StoreOptions) :
    Except Err Handle :=
  match h.db with
  | none => .error .notOpen
  | some db =>
    if db.containsStore storeName then .ok h
    else
      .ok { h with db := some (db.addStore storeName
        { keyPath := options.bind (·.keyPath)
          autoIncrement := (options.bind (·.autoIncrement)).getD false
          indexes := []
          records := [] }) }

/-- createIndex (src/index.ts lines 55-79): throws NotOpen when this.db is
null; then StoreNotFound when the store is missing; then
IndexCreationOutsideUpgrade when this.upgradeTransaction is null; then a
silent return when the index already exists; otherwise creates the index
with the defaults applied.  The inner none branch is unreachable because the
containsStore test has already succeeded. -/
def createIndex (h : Handle) (storeName indexName keyPath : String)
    (options : Option IndexOptions) : Except Err Handle :=
  match h.db with
  | none => .error .notOpen
  | some db =>
    if db.containsStore storeName = false then .error (.storeNotFound storeName)
    else if h.upgradeTransaction = false then .error .indexCreationOutsideUpgrade
    else
      match db.getStore storeName with
      | none => .error (.storeNotFound storeName)
      | some st =>
        if st.containsIndex indexName then .ok h
        else
          .ok { h with db := some (db.setStore storeName
            { st with indexes := st.indexes ++
                [(indexName,
                  { keyPath := keyPath
                    unique := (options.bind (·.unique)).getD false
                    multiEntry := (options.bind (·.multiEntry)).getD false })] }) }

/-- Transaction modes passed to db.transaction. -/
inductive TxMode where
  | readonly
  | readwrite
deriving DecidableEq, Repr

/-- The seven request kinds a data operation can issue against a store. -/
inductive ReqKind where
  | add
  | get
  | put
  | delete
  | clear
  | getAll
  | count
deriving DecidableEq, Repr

/-- Engine interactions observable from a single data operation: opening a
transaction over a store-name list with a mode, and issuing one request of a
given kind against a store. -/
inductive Event where
  | transaction (stores : List String) (mode : TxMode)
  | request (kind : ReqKind) (storeName : String)
deriving DecidableEq, Repr

/-- A fresh auto-increment key: one past the largest key in use. -/
def nextKey (records : List (Nat × DataRecord)) : Nat :=
  (records.foldl (fun m p => max m p.1) 0) + 1

/-- The engine key derivation for add/put without an explicit key argument:
via the key path of the store when present, else generated when auto-increment is
set, else no key is derivable. -/
def deriveKey (st : ObjectStore) (r : DataRecord) : Option Nat :=
  match st.keyPath with
  | some kp => r.keyAt kp
  | none => if st.autoIncrement then some (nextKey st.records) else none

/-- Insert or overwrite the entry at a key (the engine put semantics). -/
def putAssoc : List (Nat × DataRecord) → Nat → DataRecord → List (Nat × DataRecord)
  | [], k, r => [(k, r)]
  | (k', r') :: t, k, r =>
    if k' = k then (k, r) :: t else (k', r') :: putAssoc t k r

/-- Record lookup by primary key (the engine get semantics). -/
def lookupRec (records : List (Nat × DataRecord)) (k : Nat) : Option DataRecord :=
  (records.find? (fun p => p.1 == k)).map (·.2)

/-- Engine semantics of store.add: derives the key, enforces primary-key
uniqueness, appends the record.  Errors carry the engine diagnostic name. -/
def storeAdd (st : ObjectStore) (r : DataRecord) : Except String ObjectStore :=
  match deriveKey st r with
  | none => .error "DataError"
  | some k =>
    if (lookupRec st.records k).isSome then .error "ConstraintError"
    else .ok { st with records := st.records ++ [(k, r)] }

/-- Engine semantics of store.put: derives the key and upserts. -/
def storePut (st : ObjectStore) (r : DataRecord) : Except String ObjectStore :=
  match deriveKey st r with
  | none => .error "DataError"
  | some k => .ok { st with records := putAssoc st.records k r }

/-- add (src/index.ts lines 81-92): NotOpen check, then one readwrite
transaction on the store, then one add request; the promise resolves with no
value or rejects with AddFailed carrying the engine diagnostic. -/
def add (h : Handle) (storeName : String) (data : DataRecord) :
    Except Err Handle × List Event :=
  match h.db with
  | none => (.error .notOpen, [])
  | some db =>
    match db.getStore storeName with
    | none => (.error (.engineNotFound storeName),
               [.transaction [storeName] .readwrite])
    | some st =>
      let evs : List Event :=
        [.transaction [storeName] .readwrite, .request .add storeName]
      match storeAdd st data with
      | .error msg => (.error (.addFailed msg), evs)
      | .ok st' => (.ok { h with db := some (db.setStore storeName st') }, evs)

/-- get (src/index.ts lines 94-105): NotOpen check, then one readonly
transaction, then one get request; resolves with the engine result, which
is the matching record or an absent value. -/
def get (h : Handle) (storeName : String) (key : Nat) :
    Except Err (Option DataRecord) × List Event :=
  match h.db with
  | none => (.error .notOpen, [])
  | some db =>
    match db.getStore storeName with
    | none => (.error (.engineNotFound storeName),
               [.transaction [storeName] .readonly])
    | some st =>
      (.ok (lookupRec st.records key),
       [.transaction [storeName] .readonly, .request .get storeName])

/-- put (src/index.ts lines 107-118): NotOpen check, then one readwrite
transaction, then one put request (upsert). -/
def put (h : Handle) (storeName : String) (data : DataRecord) :
    Except Err Handle × List Event :=
  match h.db with
  | none => (.error .notOpen, [])
  | some db =>
    match db.getStore storeName with
    | none => (.error (.engineNotFound storeName),
               [.transaction [storeName] .readwrite])
    | some st =>
      let evs : List Event :=
        [.transaction [storeName] .readwrite, .request .put storeName]
      match storePut st data with
      | .error msg => (.error (.putFailed msg), evs)
      | .ok st' => (.ok { h with db := some (db.setStore storeName st') }, evs)

/-- delete (src/index.ts lines 120-131): NotOpen check, then one readwrite
transaction, then one delete request; absent keys delete silently. -/
def delete (h : Handle) (storeName : String) (key : Nat) :
    Except Err Handle × List Event :=
  match h.db with
  | none => (.error .notOpen, [])
  | some db =>
    match db.getStore storeName with
    | none => (.error (.engineNotFound storeName),
               [.transaction [storeName] .readwrite])
    | some st =>
      (.ok { h with db := some (db.setStore storeName
          { st with records := st.records.filter (fun p => p.1 != key) }) },
       [.transaction [storeName] .readwrite, .request .delete storeName])

/-- clear (src/index.ts lines 133-144): NotOpen check, then one readwrite
transaction, then one clear request. -/
def clear (h : Handle) (storeName : String) :
    Except Err Handle × List Event :=
  match h.db with
  | none => (.error .notOpen, [])
  | some db =>
    match db.getStore storeName with
    | none => (.error (.engineNotFound storeName),
               [.transaction [storeName] .readwrite])
    | some st =>
      (.ok { h with db := some (db.setStore storeName
          { st with records := [] }) },
       [.transaction [storeName] .readwrite, .request .clear storeName])

/-- getAll (src/index.ts lines 146-157): NotOpen check, then one readonly
transaction, then one getAll request; resolves with all records. -/
def getAll (h : Handle) (storeName : String) :
    Except Err (List DataRecord) × List Event :=
  match h.db with
  | none => (.error .notOpen, [])
  | some db =>
    match db.getStore storeName with
    | none => (.error (.engineNotFound storeName),
               [.transaction [storeName] .readonly])
    | some st =>
      (.ok (st.records.map (·.2)),
       [.transaction [storeName] .readonly, .request .getAll storeName])

/-- count (src/index.ts lines 159-170): NotOpen check, then one readonly
transaction, then one count request; resolves with the record count. -/
def count (h : Handle) (storeName : String) :
    Except Err Nat × List Event :=
  match h.db with
  | none => (.error .notOpen, [])
  | some db =>
    match db.getStore storeName with
    | none => (.error (.engineNotFound storeName),
               [.transaction [storeName] .readonly])
    | some st =>
      (.ok st.records.length,
       [.transaction [storeName] .readonly, .request .count storeName])

/-- close (src/index.ts lines 172-175): engine-level close of the reference
when present, then this.db is set to null; this.upgradeTransaction is left
untouched.  Nothing in the body can throw. -/
def close (h : Handle) : Handle :=
  { h with db := none }

/-- A schema call an upgrade callback can make against the handle. -/
inductive SchemaCmd where
  | store (storeName : String) (options : Option StoreOptions)
  | index (storeName indexName keyPath : String) (options : Option IndexOptions)
deriving DecidableEq, Repr

/-- Dispatch one schema call to the corresponding adapter method. -/
def runSchemaCmd (h : Handle) : SchemaCmd → Except Err Handle
  | .store s o => createStore h s o
  | .index s i kp o => createIndex h s i kp o

/-- Run the schema calls of an upgrade callback in order; a thrown error
stops execution, keeps the mutations made so far, and escapes (the Bool
reports whether an exception escaped). -/
def runCmds : Handle → List SchemaCmd → Handle × Bool
  | h, [] => (h, false)
  | h, c :: rest =>
    match runSchemaCmd h c with
    | .error _ => (h, true)
    | .ok h' => runCmds h' rest

/-- A user-supplied upgrade callback, modelled by the schema calls it makes
against the handle and whether it ends by throwing an exception of its own. -/
structure UpgradeCallback where
  cmds : List SchemaCmd
  throwsAfter : Bool
deriving DecidableEq, Repr

/-- Execute an upgrade callback body against the handle. -/
def runCallback (h : Handle) (cb : UpgradeCallback) : Handle × Bool :=
  match runCmds h cb.cmds with
  | (h', true) => (h', true)
  | (h', false) => (h', cb.throwsAfter)

/-- The request.onupgradeneeded handler (src/index.ts lines 33-38): stores
the delivered database reference, stores the upgrade transaction reference,
invokes the callback when one was supplied, then clears the transaction
reference.  The clearing statement is the last line of the handler, so it is
skipped whenever the callback throws; the exception then escapes the handler
(the returned Bool).  The handler overwrites both fields, so the prior
state of the handle does not matter. -/
def onUpgradeNeeded (delivered : EngineDB) (cb : Option UpgradeCallback) :
    Handle × Bool :=
  let h1 : Handle := { db := some delivered, upgradeTransaction := true }
  match cb with
  | none => ({ h1 with upgradeTransaction := false }, false)
  | some cb =>
    match runCallback h1 cb with
    | (h2, true) => (h2, true)
    | (h2, false) => ({ h2 with upgradeTransaction := false }, false)

/-- The final signal the engine delivers for an open request. -/
inductive OpenSignal where
  | success
  | failure (msg : String)
deriving DecidableEq, Repr

/-- The engine behaviour for one open request: an optional upgradeneeded
notification (carrying the database reference it delivers) preceding the
final signal, and the database delivered as request.result on a success with
no upgrade. -/
structure OpenBehavior where
  upgrade : Option EngineDB
  signal : OpenSignal
  base : EngineDB
deriving DecidableEq, Repr

/-- Outcome of one open call: the handle state afterwards, the promise
settlement, whether indexedDB.open was invoked at all, and whether a callback
exception escaped the upgrade handler into the host event loop. -/
structure OpenResult where
  handle : Handle
  promise : Except Err Unit
  engineCalled : Bool
  unhandledException : Bool
deriving Repr

/-- open (src/index.ts lines 19-40): when the environment lacks the
indexedDB capability the call throws UnsupportedEnvironment before any
engine call; otherwise it issues one indexedDB.open request and reacts to
the engine-delivered events.  An upgradeneeded notification runs the
onUpgradeNeeded handler first.  The onsuccess handler stores request.result
(after an upgrade this is the same mutated database the handler stored),
clears the upgrade transaction reference and resolves; the onerror handler
rejects with OpenFailed, touching no state. -/
def openDB (envHasIndexedDB : Bool) (dbName : String) (version : Nat)
    (h : Handle) (cb : Option UpgradeCallback) (beh : OpenBehavior) :
    OpenResult :=
  if envHasIndexedDB = false then
    { handle := h
      promise := .error .unsupportedEnvironment
      engineCalled := false
      unhandledException := false }
  else
    let step : Handle × Bool :=
      match beh.upgrade with
      | none => (h, false)
      | some delivered => onUpgradeNeeded delivered cb
    match beh.signal with
    | .success =>
      let result : EngineDB :=
        match beh.upgrade with
        | none => beh.base
        | some _ => (step.1.db).getD beh.base
      { handle := { db := some result, upgradeTransaction := false }
        promise := .ok ()
        engineCalled := true
        unhandledException := step.2 }
    | .failure msg =>
      { handle := step.1
        promise := .error (.openFailed msg)
        engineCalled := true
        unhandledException := step.2 }

/-- Every data and schema operation of the adapter reports NotOpen. -/
def failsAllNotOpen (h : Handle) : Prop :=
  (∀ s d, (add h s d).1 = .error .notOpen) ∧
  (∀ s k, (get h s k).1 = .error .notOpen) ∧
  (∀ s d, (put h s d).1 = .error .notOpen) ∧
  (∀ s k, (delete h s k).1 = .error .notOpen) ∧
  (∀ s, (clear h s).1 = .error .notOpen) ∧
  (∀ s, (getAll h s).1 = .error .notOpen) ∧
  (∀ s, (count h s).1 = .error .notOpen) ∧
  (∀ s o, createStore h s o = .error .notOpen) ∧
  (∀ s i kp o, createIndex h s i kp o = .error .notOpen)

/-! Concrete fixtures used by witnesses and counterexamples, mirroring the
users store of the repository README. -/

/-- An empty users store with key path id. -/
def usersStore : ObjectStore :=
  { keyPath := some "id", autoIncrement := false, indexes := [], records := [] }

/-- A database holding only the users store. -/
def usersDB : EngineDB := { stores := [("users", usersStore)] }

/-- A handle on a database with no stores, outside any upgrade window. -/
def emptyOpenHandle : Handle :=
  { db := some { stores := [] }, upgradeTransaction := false }

/-- A handle whose open succeeded with usersDB, outside any upgrade window. -/
def usersHandle : Handle := { db := some usersDB, upgradeTransaction := false }

/-- The same open database during an upgrade window. -/
def usersUpgradeHandle : Handle :=
  { db := some usersDB, upgradeTransaction := true }

/-- The email index configuration produced with default options. -/
def emailIndex : IndexConfig :=
  { keyPath := "email", unique := false, multiEntry := false }

/-- usersDB after the email index is declared on the users store. -/
def usersDBIndexed : EngineDB :=
  { stores := [("users", { usersStore with indexes := [("email", emailIndex)] })] }

/-- A sample record with key field id 1. -/
def rec12 : DataRecord := { fields := [("id", 1), ("name", 2)] }

/-- The users store after rec12 is stored under key 1. -/
def usersStoreAfterPut : ObjectStore :=
  { keyPath := some "id", autoIncrement := false, indexes := [],
    records := [(1, rec12)] }

/-- The database after rec12 is stored in the users store. -/
def usersDBAfterPut : EngineDB := { stores := [("users", usersStoreAfterPut)] }

/-! Helper lemmas about the association-list engine model. -/

theorem exists_find?_of_any {α : Type} (p : α → Bool) (l : List α)
    (h : l.any p = true) : ∃ x, l.find? p = some x := by
  induction l with
  | nil => simp at h
  | cons a t ih =>
    by_cases hpa : p a
    · exact ⟨a, by simp [List.find?_cons_of_pos _ hpa]⟩
    · have ht : t.any p = true := by simpa [List.any_cons, hpa] using h
      obtain ⟨x, hx⟩ := ih ht
      exact ⟨x, by simp [List.find?_cons_of_neg _ hpa, hx]⟩

theorem getStore_isSome_of_containsStore (db : EngineDB) (s : String)
    (hc : db.containsStore s = true) : ∃ st, db.getStore s = some st := by
  obtain ⟨x, hx⟩ := exists_find?_of_any _ _ hc
  exact ⟨x.2, by simp [EngineDB.getStore, hx]⟩

theorem containsStore_addStore_self (db : EngineDB) (s : String)
    (st : ObjectStore) : (db.addStore s st).containsStore s = true := by
  simp [EngineDB.addStore, EngineDB.containsStore, List.any_append]

theorem containsStore_setStore (db : EngineDB) (s s' : String)
    (st : ObjectStore) :
    (db.setStore s st).containsStore s' = db.containsStore s' := by
  simp only [EngineDB.setStore, EngineDB.containsStore]
  induction db.stores with
  | nil => rfl
  | cons p t ih =>
    rw [List.map_cons, List.any_cons, List.any_cons, ih]
    congr 1
    by_cases hp : (p.1 == s) = true
    · rw [if_pos hp]
    · rw [if_neg hp]

theorem getStore_setStore_self (db : EngineDB) (s : String) (st : ObjectStore) :
    (db.setStore s st).getStore s = (db.getStore s).map (fun _ => st) := by
  simp only [EngineDB.setStore, EngineDB.getStore]
  induction db.stores with
  | nil => rfl
  | cons p t ih =>
    rw [List.map_cons]
    by_cases hp : (p.1 == s) = true
    · rw [if_pos hp]
      simp only [List.find?_cons, hp]
      rfl
    · have hp' : (p.1 == s) = false := by simpa using hp
      rw [if_neg hp]
      simp only [List.find?_cons, hp']
      exact ih

theorem failsAllNotOpen_of_db_none (h : Handle) (hdb : h.db = none) :
    failsAllNotOpen h := by
  refine ⟨?_, ?_, ?_, ?_, ?_, ?_, ?_, ?_, ?_⟩ <;> intros <;>
    simp [add, get, put, delete, clear, getAll, count, createStore,
      createIndex, hdb]

theorem lookupRec_putAssoc_self (l : List (Nat × DataRecord)) (k : Nat)
    (r : DataRecord) : lookupRec (putAssoc l k r) k = some r := by
  induction l with
  | nil => simp [putAssoc, lookupRec]
  | cons p t ih =>
    obtain ⟨k', r'⟩ := p
    by_cases hk : k' = k
    · subst hk; simp [putAssoc, lookupRec]
    · simp [putAssoc, hk, lookupRec] at ih ⊢
      exact ih

/-- C5: declaring the same store name twice makes the second call a no-op
that never fails and keeps the configuration from the first declaration,
whatever options the second call passes; likewise a second createIndex call
with an existing index name (under the active upgrade context established by
the first successful call) is a no-op keeping the options of the first
declaration. -/
theorem declare_twice_noop :
    (∀ (h h1 : Handle) (s : String) (o1 o2 : Option StoreOptions),
       createStore h s o1 = .ok h1 → createStore h1 s o2 = .ok h1) ∧
    (∀ (h h1 : Handle) (s i kp kp' : String) (o1 o2 : Option IndexOptions),
       createIndex h s i kp o1 = .ok h1 → createIndex h1 s i kp' o2 = .ok h1) := by
  constructor
  · intro h h1 s o1 o2 heq
    unfold createStore at heq
    split at heq
    · cases heq
    · rename_i db hdb
      split at heq
      · rename_i hc
        injection heq with hh
        subst hh
        unfold createStore
        rw [hdb]
        simp [hc]
      · rename_i hc
        injection heq with hh
        subst hh
        unfold createStore
        simp [containsStore_addStore_self]
  · intro h h1 s i kp kp' o1 o2 heq
    unfold createIndex at heq
    split at heq
    · cases heq
    · rename_i db hdb
      split at heq
      · cases heq
      · rename_i hc
        split at heq
        · cases heq
        · rename_i hu
          split at heq
          · cases heq
          · rename_i st hst
            split at heq
            · rename_i hidx
              injection heq with hh
              subst hh
              unfold createIndex
              rw [hdb]
              simp [hc, hu, hst, hidx]
            · rename_i hidx
              injection heq with hh
              subst hh
              have hc' : db.containsStore s = true := by
                revert hc; cases db.containsStore s <;> simp
              have hu' : h.upgradeTransaction = true := by
                revert hu; cases h.upgradeTransaction <;> simp
              unfold createIndex
              simp only [containsStore_setStore, hc', hu',
                getStore_setStore_self, hst, Option.map_some]
              simp [ObjectStore.containsIndex, List.any_append]

/-- Witness for C5 at concrete inputs: re-declaring the users store and the
email index is accepted and returns the unchanged state. -/
theorem declare_twice_noop_witness :
    createStore usersHandle "users" none = .ok usersHandle ∧
    createIndex { db := some usersDBIndexed, upgradeTransaction := true }
        "users" "email" "other" (some { unique := some true }) =
      .ok { db := some usersDBIndexed, upgradeTransaction := true } :=
  ⟨declare_twice_noop.1 emptyOpenHandle usersHandle "users"
      (some { keyPath := some "id" }) none rfl,
   declare_twice_noop.2 usersUpgradeHandle
      { db := some usersDBIndexed, upgradeTransaction := true }
      "users" "email" "email" "other" none (some { unique := some true }) rfl⟩

/-- C6: on an open handle and an existing key-path store, putting a record
whose key field holds a key and then getting that key resolves with that
record, whatever records (including earlier puts of the same key) the store
already held. -/
theorem put_then_get_returns_last (h : Handle) (db : EngineDB)
    (st : ObjectStore) (s kp : String) (r : DataRecord) (k : Nat)
    (hdb : h.db = some db) (hst : db.getStore s = some st)
    (hkp : st.keyPath = some kp) (hk : r.keyAt kp = some k) :
    (∃ h', (put h s r).1 = .ok h') ∧
    (∀ h', (put h s r).1 = .ok h' → (get h' s k).1 = .ok (some r)) := by
  have hput : (put h s r).1 = .ok { h with db := some (db.setStore s
      { st with records := putAssoc st.records k r }) } := by
    simp only [put, hdb, hst, storePut, deriveKey, hkp, hk]
  refine ⟨⟨_, hput⟩, ?_⟩
  intro h' hp
  rw [hput] at hp
  injection hp with hh
  subst hh
  simp only [get, getStore_setStore_self, hst, Option.map_some]
  simp [lookupRec_putAssoc_self]

/-- Witness for C6: putting rec12 into the empty users store and getting
key 1 returns rec12. -/
theorem put_then_get_returns_last_witness :
    (get { db := some usersDBAfterPut, upgradeTransaction := false }
        "users" 1).1 = .ok (some rec12) :=
  (put_then_get_returns_last usersHandle usersDB usersStore "users" "id"
      rec12 1 rfl rfl rfl rfl).2 _ rfl

/-- C7: every data operation on an open handle with an existing store starts
exactly one engine transaction scoped to that store, read-only for get,
getAll and count and read-write for add, put, delete and clear, and issues
exactly one request of the matching kind against the store. -/
theorem data_ops_one_transaction_one_request (h : Handle) (db : EngineDB)
    (s : String) (hdb : h.db = some db) (hc : db.containsStore s = true) :
    (∀ d, (add h s d).2 = [.transaction [s] .readwrite, .request .add s]) ∧
    (∀ k, (get h s k).2 = [.transaction [s] .readonly, .request .get s]) ∧
    (∀ d, (put h s d).2 = [.transaction [s] .readwrite, .request .put s]) ∧
    (∀ k, (delete h s k).2 = [.transaction [s] .readwrite, .request .delete s]) ∧
    ((clear h s).2 = [.transaction [s] .readwrite, .request .clear s]) ∧
    ((getAll h s).2 = [.transaction [s] .readonly, .request .getAll s]) ∧
    ((count h s).2 = [.transaction [s] .readonly, .request .count s]) := by
  obtain ⟨st, hst⟩ := getStore_isSome_of_containsStore db s hc
  refine ⟨?_, ?_, ?_, ?_, ?_, ?_, ?_⟩
  · intro d
    simp only [add, hdb, hst]
    cases storeAdd st d <;> rfl
  · intro k
    simp only [get, hdb, hst]
  · intro d
    simp only [put, hdb, hst]
    cases storePut st d <;> rfl
  · intro k
    simp only [delete, hdb, hst]
  · simp only [clear, hdb, hst]
  · simp only [getAll, hdb, hst]
  · simp only [count, hdb, hst]

/-- Witness for C7: the event traces of the seven operations on the open
users handle. -/
theorem data_ops_one_transaction_one_request_witness :
    (add usersHandle "users" rec12).2 =
      [.transaction ["users"] .readwrite, .request .add "users"] ∧
    (count usersHandle "users").2 =
      [.transaction ["users"] .readonly, .request .count "users"] :=
  ⟨(data_ops_one_transaction_one_request usersHandle usersDB "users"
      rfl rfl).1 rec12,
   (data_ops_one_transaction_one_request usersHandle usersDB "users"
      rfl rfl).2.2.2.2.2.2⟩

/-- C1 counterexample: with an open database lacking the users store and no
active upgrade context, createIndex fails with StoreNotFound, not with
IndexCreationOutsideUpgrade. -/
theorem createIndex_missing_store_not_gated_cex :
    createIndex emptyOpenHandle "users" "email" "email" none =
      .error (.storeNotFound "users") ∧
    createIndex emptyOpenHandle "users" "email" "email" none ≠
      .error .indexCreationOutsideUpgrade := by
  refine ⟨rfl, ?_⟩
  intro hcontra
  exact absurd (Except.error.inj hcontra) (by decide)

/-- C1 as amended: with an open database reference, no active upgrade
context and an existing store, createIndex fails with
IndexCreationOutsideUpgrade. -/
theorem createIndex_outside_upgrade_existing_store (h : Handle)
    (db : EngineDB) (s i kp : String) (o : Option IndexOptions)
    (hdb : h.db = some db) (hc : db.containsStore s = true)
    (hu : h.upgradeTransaction = false) :
    createIndex h s i kp o = .error .indexCreationOutsideUpgrade := by
  simp [createIndex, hdb, hc, hu]

/-- Witness for the amended C1 on the users fixture. -/
theorem createIndex_outside_upgrade_existing_store_witness :
    createIndex usersHandle "users" "email" "email" none =
      .error .indexCreationOutsideUpgrade :=
  createIndex_outside_upgrade_existing_store usersHandle usersDB
    "users" "email" "email" none rfl rfl rfl

/-- C2 counterexample: with an open handle and no active upgrade context,
createStore succeeds and performs the structural change (the users store is
created), instead of failing with a programming error. -/
theorem createStore_outside_upgrade_succeeds_cex :
    createStore emptyOpenHandle "users" (some { keyPath := some "id" }) =
      .ok usersHandle ∧
    emptyOpenHandle.upgradeTransaction = false ∧
    usersDB.containsStore "users" = true :=
  ⟨rfl, rfl, rfl⟩

/-- C2 as amended: only createIndex is gated on the upgrade context (it can
succeed only while the context is active), while createStore requires only
an open handle and issues the structural call even outside an upgrade. -/
theorem schema_gating_createIndex_only :
    (∀ (h h1 : Handle) (s i kp : String) (o : Option IndexOptions),
        createIndex h s i kp o = .ok h1 → h.upgradeTransaction = true) ∧
    (∀ (h : Handle) (db : EngineDB) (s : String) (o : Option StoreOptions),
        h.db = some db → (createStore h s o).isOk = true) := by
  constructor
  · intro h h1 s i kp o heq
    unfold createIndex at heq
    split at heq
    · cases heq
    · rename_i db hdb
      split at heq
      · cases heq
      · rename_i hc
        split at heq
        · cases heq
        · rename_i hu
          revert hu
          cases h.upgradeTransaction <;> simp
  · intro h db s o hdb
    simp only [createStore, hdb]
    split <;> rfl

/-- Witness for the amended C2: a successful createIndex seen during an
upgrade window, and a successful createStore outside one. -/
theorem schema_gating_createIndex_only_witness :
    usersUpgradeHandle.upgradeTransaction = true ∧
    (createStore usersHandle "posts" none).isOk = true :=
  ⟨schema_gating_createIndex_only.1 usersUpgradeHandle
      { db := some usersDBIndexed, upgradeTransaction := true }
      "users" "email" "email" none rfl,
   schema_gating_createIndex_only.2 usersHandle usersDB "posts" none rfl⟩

/-- C10: createIndex checks its preconditions in a fixed order: a missing
database reference yields NotOpen regardless of the context flag; with an
open reference a missing store yields StoreNotFound whether or not an
upgrade context is active; with an existing store and no context it yields
IndexCreationOutsideUpgrade. -/
theorem createIndex_precondition_order (s i kp : String)
    (o : Option IndexOptions) :
    (∀ u : Bool, createIndex { db := none, upgradeTransaction := u } s i kp o =
        .error .notOpen) ∧
    (∀ (db : EngineDB) (u : Bool), db.containsStore s = false →
        createIndex { db := some db, upgradeTransaction := u } s i kp o =
          .error (.storeNotFound s)) ∧
    (∀ db : EngineDB, db.containsStore s = true →
        createIndex { db := some db, upgradeTransaction := false } s i kp o =
          .error .indexCreationOutsideUpgrade) := by
  refine ⟨fun u => rfl, fun db u hc => ?_, fun db hc => ?_⟩
  · simp [createIndex, hc]
  · simp [createIndex, hc]

/-- Witness for C10: a missing store reports StoreNotFound even while an
upgrade context is active. -/
theorem createIndex_precondition_order_witness :
    createIndex { db := some { stores := [] }, upgradeTransaction := true }
        "users" "email" "email" none = .error (.storeNotFound "users") :=
  (createIndex_precondition_order "users" "email" "email" none).2.1
    { stores := [] } true rfl

/-- C8: without the storage capability, open fails with
UnsupportedEnvironment for every name, version, callback and engine
behaviour, without issuing any engine call. -/
theorem open_unsupported_environment (name : String) (version : Nat)
    (h : Handle) (cb : Option UpgradeCallback) (beh : OpenBehavior) :
    openDB false name version h cb beh =
      { handle := h, promise := .error .unsupportedEnvironment,
        engineCalled := false, unhandledException := false } := rfl

/-- C9 counterexample: after close, an open that receives an upgrade
notification and then an engine error leaves the database reference set, so
a subsequent put does not fail with NotOpen although no fresh open resolved
successfully. -/
theorem close_then_failed_upgrade_open_cex :
    (close usersHandle).db = none ∧
    (openDB true "db" 3 (close usersHandle) none
        { upgrade := some usersDB, signal := .failure "quota",
          base := { stores := [] } }).promise = .error (.openFailed "quota") ∧
    (put (openDB true "db" 3 (close usersHandle) none
        { upgrade := some usersDB, signal := .failure "quota",
          base := { stores := [] } }).handle "users" rec12).1 ≠
      .error .notOpen := by
  refine ⟨rfl, rfl, ?_⟩
  intro hcontra
  exact Except.noConfusion hcontra

/-- C9 as amended: close is idempotent and clears the database reference,
and every data or schema operation on the closed handle fails with NotOpen;
the reference only becomes non-null again through a later open success or
upgrade notification. -/
theorem close_idempotent_and_notOpen (h : Handle) :
    close (close h) = close h ∧ (close h).db = none ∧
    failsAllNotOpen (close h) :=
  ⟨rfl, rfl, failsAllNotOpen_of_db_none (close h) rfl⟩

/-- C3 counterexample: an open during which the engine delivers an upgrade
notification and then reports an error leaves the database reference set on
the handle, so a subsequent add does not fail with NotOpen even though no
open ever succeeded. -/
theorem upgrade_during_failed_open_defeats_notOpen_cex :
    (openDB true "db" 2 Handle.init none
        { upgrade := some usersDB, signal := .failure "boom",
          base := { stores := [] } }).promise = .error (.openFailed "boom") ∧
    (add (openDB true "db" 2 Handle.init none
        { upgrade := some usersDB, signal := .failure "boom",
          base := { stores := [] } }).handle "users" rec12).1 ≠
      .error .notOpen := by
  refine ⟨rfl, ?_⟩
  intro hcontra
  exact Except.noConfusion hcontra

/-- C3 as amended: every data and schema operation fails with NotOpen
exactly while the database reference of the handle is null; it is null
on a fresh handle and stays null across an open that fails without an
upgrade notification, but an upgrade notification sets it even when the open
subsequently fails. -/
theorem notOpen_until_db_reference_set :
    (∀ h : Handle, h.db = none → failsAllNotOpen h) ∧
    Handle.init.db = none ∧
    (∀ (name : String) (version : Nat) (h : Handle)
        (cb : Option UpgradeCallback) (msg : String) (b : EngineDB),
        (openDB true name version h cb
            { upgrade := none, signal := .failure msg, base := b }).handle = h) :=
  ⟨failsAllNotOpen_of_db_none, rfl, fun name version h cb msg b => rfl⟩

/-- Witness for the amended C3: add on a fresh handle reports NotOpen. -/
theorem notOpen_until_db_reference_set_witness :
    (add Handle.init "users" rec12).1 = .error .notOpen :=
  (notOpen_until_db_reference_set.1 Handle.init rfl).1 "users" rec12

/-- C4 counterexample: when the upgrade callback throws, the handler skips
the statement clearing the upgrade transaction, so the context stays set
after the notification. -/
theorem upgrade_callback_throw_stale_context_cex :
    (onUpgradeNeeded { stores := [] }
        (some { cmds := [], throwsAfter := true })).1.upgradeTransaction = true ∧
    (onUpgradeNeeded { stores := [] }
        (some { cmds := [], throwsAfter := true })).2 = true :=
  ⟨rfl, rfl⟩

/-- C4 as amended: the upgrade handler clears the schema-mutation context
whenever it completes without an escaping exception — in particular always
when no callback was supplied — but a throwing callback leaves the context
set. -/
theorem upgrade_context_cleared_unless_callback_throws (delivered : EngineDB)
    (cb : Option UpgradeCallback) :
    ((onUpgradeNeeded delivered cb).2 = false →
      (onUpgradeNeeded delivered cb).1.upgradeTransaction = false) ∧
    (cb = none → (onUpgradeNeeded delivered cb).2 = false ∧
      (onUpgradeNeeded delivered cb).1.upgradeTransaction = false) := by
  constructor
  · intro hnothrow
    cases cb with
    | none => rfl
    | some c =>
      unfold onUpgradeNeeded at hnothrow ⊢
      rcases hrc : runCallback
          { db := some delivered, upgradeTransaction := true } c with ⟨h2, b⟩
      cases b
      · simp [hrc]
      · simp [hrc] at hnothrow
  · rintro rfl
    exact ⟨rfl, rfl⟩

/-- Witness for the amended C4: a callback that declares the email index
and returns normally leaves the context cleared. -/
theorem upgrade_context_cleared_unless_callback_throws_witness :
    (onUpgradeNeeded usersDB
        (some { cmds := [SchemaCmd.index "users" "email" "email" none],
                throwsAfter := false })).1.upgradeTransaction = false :=
  (upgrade_context_cleared_unless_callback_throws usersDB
      (some { cmds := [SchemaCmd.index "users" "email" "email" none],
              throwsAfter := false })).1 rfl

end SimpleIDB
